import Mathlib

/-!
Verification of the reconciliation engine of github-actions-manager
(scripts/sync-workflows.ts and scripts/set-secrets.ts).

The scripts are shallowly embedded: the GitHub HTTP API is modelled as an
oracle mapping a request (method, endpoint, body) to either a parsed
response value or an HTTP error (status code and body text); every network
function returns, next to its result, the ordered list of requests it
issued.  Byte strings are lists of natural numbers below 256; the base64
transport encoding of Buffer and the UTF-8 text codec are implemented as
executable functions.
-/

/-! ## Byte-level codecs: UTF-8 and base64

Node Buffer operations used by the scripts:
`Buffer.from(s).toString(base64)` for encoding and
`Buffer.from(c, base64).toString(utf8)` for decoding. -/

/-- UTF-8 encoding of a single character (standard 1 to 4 byte form). -/
def utf8EncodeChar (c : Char) : List Nat :=
  let n := c.toNat
  if n < 0x80 then [n]
  else if n < 0x800 then [0xC0 + n / 0x40, 0x80 + n % 0x40]
  else if n < 0x10000 then
    [0xE0 + n / 0x1000, 0x80 + n / 0x40 % 0x40, 0x80 + n % 0x40]
  else
    [0xF0 + n / 0x40000, 0x80 + n / 0x1000 % 0x40, 0x80 + n / 0x40 % 0x40, 0x80 + n % 0x40]

/-- UTF-8 encoding of a string, as a list of bytes. -/
def utf8Encode (s : String) : List Nat :=
  (s.data.map utf8EncodeChar).flatten

/-- The replacement character U+FFFD that Node emits for malformed UTF-8. -/
def repChar : Char := Char.ofNat 0xFFFD

/-- Decodes one UTF-8 sequence: given the lead byte and the remaining
bytes, yields the decoded character and the bytes after the sequence.
Malformed sequences yield the replacement character, as in Node
`Buffer.toString(utf8)` (resynchronization after a malformed multi-byte
sequence skips its lookahead bytes; well-formed input, the only case the
theorems below exercise, is decoded exactly). -/
def utf8DecodeStep (b : Nat) (bs : List Nat) : Char × List Nat :=
  if b < 0x80 then (Char.ofNat b, bs)
  else if b < 0xC2 then (repChar, bs)
  else if b < 0xE0 then
    match bs with
    | b2 :: bs2 =>
      if 0x80 ≤ b2 ∧ b2 < 0xC0 then
        (Char.ofNat ((b - 0xC0) * 0x40 + (b2 - 0x80)), bs2)
      else (repChar, bs2)
    | [] => (repChar, [])
  else if b < 0xF0 then
    match bs with
    | b2 :: b3 :: bs3 =>
      if (0x80 ≤ b2 ∧ b2 < 0xC0) ∧ (0x80 ≤ b3 ∧ b3 < 0xC0) then
        let n := (b - 0xE0) * 0x1000 + (b2 - 0x80) * 0x40 + (b3 - 0x80)
        if n < 0x800 ∨ (0xD800 ≤ n ∧ n < 0xE000) then (repChar, bs3)
        else (Char.ofNat n, bs3)
      else (repChar, bs3)
    | _ => (repChar, [])
  else if b < 0xF5 then
    match bs with
    | b2 :: b3 :: b4 :: bs4 =>
      if (0x80 ≤ b2 ∧ b2 < 0xC0) ∧ (0x80 ≤ b3 ∧ b3 < 0xC0) ∧ (0x80 ≤ b4 ∧ b4 < 0xC0) then
        let n := (b - 0xF0) * 0x40000 + (b2 - 0x80) * 0x1000 +
          (b3 - 0x80) * 0x40 + (b4 - 0x80)
        if n < 0x10000 ∨ 0x110000 ≤ n then (repChar, bs4)
        else (Char.ofNat n, bs4)
      else (repChar, bs4)
    | _ => (repChar, [])
  else (repChar, bs)

/-- The decoding loop, with fuel.  One unit of fuel is spent per decoded
character and every character consumes at least one byte, so fuel equal to
the byte count always suffices. -/
def utf8DecodeGo : Nat → List Nat → List Char
  | 0, _ => []
  | _, [] => []
  | fuel + 1, b :: bs =>
    (utf8DecodeStep b bs).1 :: utf8DecodeGo fuel (utf8DecodeStep b bs).2

/-- UTF-8 decoding of a byte list. -/
def utf8DecodeLoop (bs : List Nat) : List Char :=
  utf8DecodeGo bs.length bs

/-- UTF-8 decoding of a byte list into a string. -/
def utf8Decode (bs : List Nat) : String :=
  ⟨utf8DecodeLoop bs⟩

/-- The base64 alphabet character for a 6-bit value. -/
def b64Char (n : Nat) : Char :=
  Char.ofNat
    (if n < 26 then 65 + n
     else if n < 52 then 97 + n - 26
     else if n < 62 then 48 + n - 52
     else if n = 62 then 43
     else 47)

/-- Standard base64 encoding (with padding) of a byte list, as characters. -/
def b64EncodeBytes : List Nat → List Char
  | [] => []
  | [b1] => [b64Char (b1 / 4), b64Char (b1 % 4 * 16), '=', '=']
  | [b1, b2] => [b64Char (b1 / 4), b64Char (b1 % 4 * 16 + b2 / 16), b64Char (b2 % 16 * 4), '=']
  | b1 :: b2 :: b3 :: rest =>
    b64Char (b1 / 4) :: b64Char (b1 % 4 * 16 + b2 / 16) ::
      b64Char (b2 % 16 * 4 + b3 / 64) :: b64Char (b3 % 64) :: b64EncodeBytes rest

/-- The 6-bit value of a base64 alphabet character, none for other characters. -/
def b64Val (c : Char) : Option Nat :=
  let n := c.toNat
  if 65 ≤ n ∧ n ≤ 90 then some (n - 65)
  else if 97 ≤ n ∧ n ≤ 122 then some (n - 97 + 26)
  else if 48 ≤ n ∧ n ≤ 57 then some (n - 48 + 52)
  else if n = 43 then some 62
  else if n = 47 then some 63
  else none

/-- Packs a list of 6-bit values into bytes, dropping incomplete trailing bits,
as Node base64 decoding does. -/
def b64DecodeVals : List Nat → List Nat
  | v1 :: v2 :: v3 :: v4 :: rest =>
    (v1 * 4 + v2 / 16) :: (v2 % 16 * 16 + v3 / 4) :: (v3 % 4 * 64 + v4) :: b64DecodeVals rest
  | [v1, v2, v3] => [v1 * 4 + v2 / 16, v2 % 16 * 16 + v3 / 4]
  | [v1, v2] => [v1 * 4 + v2 / 16]
  | _ => []

/-- Base64 decoding of a character list into bytes; characters outside the
alphabet (including padding) are ignored, as Node does. -/
def b64DecodeBytes (s : List Char) : List Nat :=
  b64DecodeVals (s.filterMap b64Val)

/-- Models `encodeBase64` of sync-workflows.ts:
`Buffer.from(content).toString(base64)`. -/
def encodeBase64 (content : String) : String :=
  ⟨b64EncodeBytes (utf8Encode content)⟩

/-- Models `Buffer.from(s, base64).toString(utf8)` used when comparing the
existing remote content with the desired content. -/
def decodeBase64 (s : String) : String :=
  utf8Decode (b64DecodeBytes s.data)

/-! ## Substring test, path helpers -/

/-- Substring occurrence test on character lists. -/
def listIncludes : List Char → List Char → Bool
  | _, [] => true
  | [], _ :: _ => false
  | c :: cs, s :: ss => List.isPrefixOf (s :: ss) (c :: cs) || listIncludes cs (s :: ss)

/-- Models the JavaScript `String.prototype.includes` substring test. -/
def strIncludes (s sub : String) : Bool :=
  listIncludes s.data sub.data

/-- Splits a character list on the slash character, keeping empty segments,
matching the JavaScript `split("/")`. -/
def splitSlashGo : List Char → List (List Char)
  | [] => [[]]
  | c :: rest =>
    if c = '/' then [] :: splitSlashGo rest
    else
      match splitSlashGo rest with
      | [] => [[c]]
      | g :: gs => (c :: g) :: gs

/-- Splits a string on the slash character, as JavaScript `split("/")`. -/
def strSplitSlash (s : String) : List String :=
  (splitSlashGo s.data).map fun cs => ⟨cs⟩

/-- The last element of a list, or the given default for an empty list. -/
def lastD : List String → String → String
  | [], d => d
  | [x], _ => x
  | _ :: y :: ys, d => lastD (y :: ys) d

/-- Models `path.basename`: the part of the path after the last slash. -/
def basename (p : String) : String :=
  lastD (strSplitSlash p) p

/-- Models `path.relative(base, p)` for the case used by the script, where
`p` lies under `base`: strips the leading `base` directory. -/
def pathRelative (base p : String) : String :=
  if List.isPrefixOf (base ++ "/").data p.data then ⟨p.data.drop (base.length + 1)⟩ else p

/-! ## Requests and responses of the GitHub API model -/

/-- HTTP method of a request issued through `githubRequest`. -/
inductive Method where
  | GET
  | PUT
  | PATCH
  | POST
deriving DecidableEq, Repr

/-- The JSON body of a request, structured by which call site builds it.
`putFile` carries the optional version token (`sha`): present for an
update write, absent for a create write. -/
inductive ReqBody where
  | noBody : ReqBody
  | putFile (message content : String) (sha : Option String) (branch : String) : ReqBody
  | varBody (name value : String) : ReqBody
  | secretBody (encryptedValue keyId : String) : ReqBody
deriving DecidableEq, Repr

/-- A request issued through `githubRequest`. -/
structure GHRequest where
  method : Method
  endpoint : String
  body : ReqBody
deriving DecidableEq, Repr

/-- A non-ok HTTP response: status code and response body text. -/
structure HttpError where
  status : Nat
  body : String
deriving DecidableEq, Repr

/-- A parsed successful response: the file response (content and sha), the
public-key response (key id and key), or an empty or irrelevant body. -/
inductive GHValue where
  | fileResp (content sha : String)
  | keyResp (keyId key : String)
  | empty
deriving DecidableEq, Repr

/-- The external network: maps each request to a parsed response or an
HTTP error. -/
abbrev Oracle := GHRequest → Except HttpError GHValue

deriving instance DecidableEq for Except

/-- The message of the Error thrown by `githubRequest` on a non-ok
response: the status code followed by the response body text. -/
def errMessage (e : HttpError) : String :=
  "GitHub API error: " ++ toString e.status ++ " " ++ e.body

/-- Models `githubRequest`: performs the request through the oracle and
turns a non-ok response into a thrown Error with message `errMessage`. -/
def githubRequest (oracle : Oracle) (req : GHRequest) : Except String GHValue :=
  match oracle req with
  | .ok v => .ok v
  | .error e => .error (errMessage e)


/-! ## Reconciliation outcomes and log events -/

/-- The per-artifact reconciliation outcome, matching the three success log
lines of `syncFile`. -/
inductive Outcome where
  | unchanged
  | created
  | updated
deriving DecidableEq, Repr

/-- The observable per-repository output stream of the two scripts,
abstracting the console log lines. -/
inductive LogEvent where
  | varSet (repoName value : String)
  | varError (msg : String)
  | noWorkflows (repoName : String)
  | fileSynced (filePath : String) (outcome : Outcome)
  | workflowError (workflowName msg : String)
  | noRepositories
  | secretSet (repoName : String)
  | secretError (repoName msg : String)
deriving DecidableEq, Repr

/-! ## File reconciliation: syncFile of sync-workflows.ts -/

/-- The contents endpoint of a file: `/repos/OWNER/REPO/contents/PATH`. -/
def fileEndpoint (owner repo filePath : String) : String :=
  "/repos/" ++ owner ++ "/" ++ repo ++ "/contents/" ++ filePath

/-- The read request of `syncFile`: GET on the contents endpoint with the
branch as the `ref` query parameter. -/
def fileGetReq (owner repo filePath branch : String) : GHRequest :=
  ⟨.GET, fileEndpoint owner repo filePath ++ "?ref=" ++ branch, .noBody⟩

/-- The update write of `syncFile`: PUT carrying the encoded desired
content, the observed version token `sha`, and the branch. -/
def updatePutReq (owner repo filePath content sha branch : String) : GHRequest :=
  ⟨.PUT, fileEndpoint owner repo filePath,
    .putFile ("Update workflow: " ++ basename filePath) (encodeBase64 content) (some sha) branch⟩

/-- The create write of `syncFile`: PUT carrying the encoded desired
content and the branch, with no version token. -/
def createPutReq (owner repo filePath content branch : String) : GHRequest :=
  ⟨.PUT, fileEndpoint owner repo filePath,
    .putFile ("Add workflow: " ++ basename filePath) (encodeBase64 content) none branch⟩

/-- The try block of `syncFile`: read the existing file; on success compare
the decoded content with the desired content and either skip or issue the
update write.  A response without the content and sha fields makes
`Buffer.from` throw a TypeError.  Returns the outcome or the thrown message,
with the list of requests issued. -/
def syncFileTry (oracle : Oracle) (owner repo filePath content branch : String) :
    Except String Outcome × List GHRequest :=
  let getReq := fileGetReq owner repo filePath branch
  match githubRequest oracle getReq with
  | .error msg => (.error msg, [getReq])
  | .ok (.fileResp existingContent existingSha) =>
    if decodeBase64 existingContent = content then
      (.ok .unchanged, [getReq])
    else
      let putReq := updatePutReq owner repo filePath content existingSha branch
      match githubRequest oracle putReq with
      | .ok _ => (.ok .updated, [getReq, putReq])
      | .error msg => (.error msg, [getReq, putReq])
  | .ok _ => (.error "TypeError", [getReq])

/-- The catch block of `syncFile`: if the caught message contains the
substring 404, issue the create write (no version token); otherwise
rethrow the message. -/
def syncFileCatch (oracle : Oracle) (owner repo filePath content branch msg : String)
    (tr : List GHRequest) : Except String Outcome × List GHRequest :=
  if strIncludes msg "404" then
    let createReq := createPutReq owner repo filePath content branch
    match githubRequest oracle createReq with
    | .ok _ => (.ok .created, tr ++ [createReq])
    | .error msg2 => (.error msg2, tr ++ [createReq])
  else
    (.error msg, tr)

/-- Models `syncFile` of sync-workflows.ts: the try block with its catch
block.  Returns the outcome (or the message of an uncaught throw) and the
ordered list of requests issued during the attempt. -/
def syncFile (oracle : Oracle) (owner repo filePath content branch : String) :
    Except String Outcome × List GHRequest :=
  match syncFileTry oracle owner repo filePath content branch with
  | (.ok o, tr) => (.ok o, tr)
  | (.error msg, tr) => syncFileCatch oracle owner repo filePath content branch msg tr

/-! ## Variable reconciliation: setVariable of sync-workflows.ts -/

/-- The per-variable endpoint `/repos/OWNER/REPO/actions/variables/NAME`. -/
def varEndpoint (owner repo name : String) : String :=
  "/repos/" ++ owner ++ "/" ++ repo ++ "/actions/variables/" ++ name

/-- The read request of `setVariable`. -/
def varGetReq (owner repo name : String) : GHRequest :=
  ⟨.GET, varEndpoint owner repo name, .noBody⟩

/-- The update write of `setVariable`: PATCH on the per-variable endpoint. -/
def varPatchReq (owner repo name value : String) : GHRequest :=
  ⟨.PATCH, varEndpoint owner repo name, .varBody name value⟩

/-- The create write of `setVariable`: POST on the collection endpoint. -/
def varCreateReq (owner repo name value : String) : GHRequest :=
  ⟨.POST, "/repos/" ++ owner ++ "/" ++ repo ++ "/actions/variables", .varBody name value⟩

/-- The try block of `setVariable`: read the existing variable and, when
the read succeeds, issue the update write. -/
def setVariableTry (oracle : Oracle) (owner repo name value : String) :
    Except String Unit × List GHRequest :=
  let getReq := varGetReq owner repo name
  match githubRequest oracle getReq with
  | .error msg => (.error msg, [getReq])
  | .ok _ =>
    let patchReq := varPatchReq owner repo name value
    match githubRequest oracle patchReq with
    | .ok _ => (.ok (), [getReq, patchReq])
    | .error msg => (.error msg, [getReq, patchReq])

/-- The catch block of `setVariable`: if the caught message contains the
substring 404, issue the create write; otherwise rethrow. -/
def setVariableCatch (oracle : Oracle) (owner repo name value msg : String)
    (tr : List GHRequest) : Except String Unit × List GHRequest :=
  if strIncludes msg "404" then
    let postReq := varCreateReq owner repo name value
    match githubRequest oracle postReq with
    | .ok _ => (.ok (), tr ++ [postReq])
    | .error msg2 => (.error msg2, tr ++ [postReq])
  else
    (.error msg, tr)

/-- Models `setVariable` of sync-workflows.ts. -/
def setVariable (oracle : Oracle) (owner repo name value : String) :
    Except String Unit × List GHRequest :=
  match setVariableTry oracle owner repo name value with
  | (.ok u, tr) => (.ok u, tr)
  | (.error msg, tr) => setVariableCatch oracle owner repo name value msg tr

/-! ## Secret reconciliation: set-secrets.ts -/

/-- The sealed-box primitive of tweetnacl: plaintext bytes and recipient
public-key bytes to ciphertext bytes.  External to the scripts, so taken
as a parameter of the model. -/
abbrev Seal := List Nat → List Nat → List Nat

/-- Models `encryptSecret` of set-secrets.ts: decode the base64 public
key, UTF-8 encode the plaintext, seal, and base64 encode the result. -/
def encryptSecret (sealFn : Seal) (publicKey secretValue : String) : String :=
  ⟨b64EncodeBytes (sealFn (utf8Encode secretValue) (b64DecodeBytes publicKey.data))⟩

/-- The public-key read request of `getPublicKey`. -/
def pkGetReq (owner repo : String) : GHRequest :=
  ⟨.GET, "/repos/" ++ owner ++ "/" ++ repo ++ "/actions/secrets/public-key", .noBody⟩

/-- The secret write of `setSecret`: PUT of the sealed value tagged with
the key identifier. -/
def secretPutReq (owner repo secretName encryptedValue keyId : String) : GHRequest :=
  ⟨.PUT, "/repos/" ++ owner ++ "/" ++ repo ++ "/actions/secrets/" ++ secretName,
    .secretBody encryptedValue keyId⟩

/-- Models `setSecret` of set-secrets.ts: fetch the public key, seal the
plaintext under it, and write the sealed value tagged with the key
identifier.  There is no read of the existing secret value and no equality
short-circuit.  A public-key response without the key fields makes the
field access throw a TypeError. -/
def setSecret (oracle : Oracle) (sealFn : Seal) (owner repo secretName secretValue : String) :
    Except String Unit × List GHRequest :=
  let pkReq := pkGetReq owner repo
  match githubRequest oracle pkReq with
  | .error msg => (.error msg, [pkReq])
  | .ok (.keyResp keyId key) =>
    let encryptedValue := encryptSecret sealFn key secretValue
    let putReq := secretPutReq owner repo secretName encryptedValue keyId
    match githubRequest oracle putReq with
    | .ok _ => (.ok (), [pkReq, putReq])
    | .error msg => (.error msg, [pkReq, putReq])
  | .ok _ => (.error "TypeError", [pkReq])

/-! ## Configuration and the batch drivers -/

/-- One entry of config/repositories.yaml.  The set-secrets script uses
the same file and ignores the extra fields. -/
structure RepositoryConfig where
  name : String
  workflows : Option (List String)
  branch : Option String
  runsOn : Option String
deriving DecidableEq, Repr

/-- The parsed configuration file. -/
structure Config where
  repositories : Option (List RepositoryConfig)
deriving DecidableEq, Repr

/-- The local template directory tree, as seen through `fs.readdir` with
file types: a sibling list in directory order, where each entry is a file
or a directory with its own children. -/
inductive FSTree where
  | nil : FSTree
  | file (name : String) (rest : FSTree) : FSTree
  | dir (name : String) (children : FSTree) (rest : FSTree) : FSTree
deriving DecidableEq, Repr

/-- Models `getFilesRecursively`: depth-first traversal in directory
order, collecting full file paths. -/
def getFilesRec (d : String) : FSTree → List String
  | .nil => []
  | .file name rest => (d ++ "/" ++ name) :: getFilesRec d rest
  | .dir name children rest =>
    getFilesRec (d ++ "/" ++ name) children ++ getFilesRec d rest

/-- The environment of the sync-workflows driver: the network oracle, the
local file reader (config templates and auxiliary files), and the result
of reading the auxiliary `templates/.github/commands` directory tree
(an ENOENT error when the directory is absent). -/
structure SyncEnv where
  oracle : Oracle
  readFile : String → Except String String
  commandsDir : Except String FSTree

/-- The templates directory, `path.join` of the script directory and
`../templates`, taken relative to the repository root. -/
def templatesDir : String := "templates"

/-- The auxiliary content directory `templates/.github/commands`. -/
def commandsDirPath : String := "templates/.github/commands"

/-- Extracts the owner from `repoConfig.name.split("/")`, element 0 of the
destructuring. -/
def parseOwner (name : String) : String :=
  (strSplitSlash name).headD ""

/-- Extracts the repository from the destructuring, element 1; a missing
element is the JavaScript undefined, which interpolates into the endpoint
as the string undefined. -/
def parseRepo (name : String) : String :=
  ((strSplitSlash name).drop 1).headD "undefined"

/-- Models `repoConfig.branch || "main"`: the or-else is falsy-based, so an
empty branch string also falls back to main. -/
def parseBranch : Option String → String
  | some b => if b = "" then "main" else b
  | none => "main"

/-- The inner loop over auxiliary command files: for each file, compute its
path relative to the templates directory, read it, and reconcile it.  A
read error or an uncaught `syncFile` throw stops the loop and propagates
(to be examined by the enclosing catch blocks); events and requests
produced before the throw are kept. -/
def syncCommandFiles (oracle : Oracle) (readFile : String → Except String String)
    (owner repo branch : String) :
    List String → Except String Unit × (List LogEvent × List GHRequest)
  | [] => (.ok (), ([], []))
  | cf :: rest =>
    let relativePath := pathRelative templatesDir cf
    match readFile cf with
    | .error msg => (.error msg, ([], []))
    | .ok commandContent =>
      match syncFile oracle owner repo relativePath commandContent branch with
      | (.ok o, tr) =>
        match syncCommandFiles oracle readFile owner repo branch rest with
        | (res, (evs, trs)) => (res, (.fileSynced relativePath o :: evs, tr ++ trs))
      | (.error msg, tr) => (.error msg, ([], tr))

/-- Models one iteration of the per-workflow loop of `main`: read the
template, reconcile the fixed-path template file, then reconcile every
auxiliary file under the commands directory.  The whole iteration is
wrapped in a try/catch that reports a workflow error; the inner try/catch
around the auxiliary directory swallows ENOENT messages and rethrows
everything else to the outer catch. -/
def processWorkflow (env : SyncEnv) (owner repo branch workflowName : String) :
    List LogEvent × List GHRequest :=
  let templatePath := templatesDir ++ "/" ++ workflowName ++ ".yml"
  match env.readFile templatePath with
  | .error msg => ([.workflowError workflowName msg], [])
  | .ok templateContent =>
    let targetPath := ".github/workflows/" ++ workflowName ++ ".yml"
    match syncFile env.oracle owner repo targetPath templateContent branch with
    | (.error msg, tr) => ([.workflowError workflowName msg], tr)
    | (.ok o, tr) =>
      match env.commandsDir with
      | .error msg =>
        if strIncludes msg "ENOENT" then ([.fileSynced targetPath o], tr)
        else ([.fileSynced targetPath o, .workflowError workflowName msg], tr)
      | .ok children =>
        match syncCommandFiles env.oracle env.readFile owner repo branch
            (getFilesRec commandsDirPath children) with
        | (.ok _, (evs, trs)) => (.fileSynced targetPath o :: evs, tr ++ trs)
        | (.error msg, (evs, trs)) =>
          if strIncludes msg "ENOENT" then (.fileSynced targetPath o :: evs, tr ++ trs)
          else (.fileSynced targetPath o :: (evs ++ [.workflowError workflowName msg]), tr ++ trs)

/-- Models the RUNS_ON step of `main`: when a runtime target is declared
(and not falsy), reconcile the RUNS_ON variable inside its own try/catch. -/
def varStep (env : SyncEnv) (repoName owner repo : String) :
    Option String → List LogEvent × List GHRequest
  | none => ([], [])
  | some v =>
    if v = "" then ([], [])
    else
      match setVariable env.oracle owner repo "RUNS_ON" v with
      | (.ok _, tr) => ([.varSet repoName v], tr)
      | (.error msg, tr) => ([.varError msg], tr)

/-- Concatenates per-item event lists and request traces in order. -/
def joinResults (rs : List (List LogEvent × List GHRequest)) :
    List LogEvent × List GHRequest :=
  ((rs.map Prod.fst).flatten, (rs.map Prod.snd).flatten)

/-- Models one iteration of the per-repository loop of `main` in
sync-workflows.ts: the RUNS_ON variable step first, then the per-workflow
file steps. -/
def processRepo (env : SyncEnv) (rc : RepositoryConfig) :
    List LogEvent × List GHRequest :=
  let owner := parseOwner rc.name
  let repo := parseRepo rc.name
  let branch := parseBranch rc.branch
  match varStep env rc.name owner repo rc.runsOn with
  | (varEvs, varTr) =>
    match rc.workflows with
    | none => (varEvs ++ [.noWorkflows rc.name], varTr)
    | some ws =>
      if ws = [] then (varEvs ++ [.noWorkflows rc.name], varTr)
      else
        match joinResults (ws.map (processWorkflow env owner repo branch)) with
        | (wEvs, wTr) => (varEvs ++ wEvs, varTr ++ wTr)

/-- Models `main` of sync-workflows.ts after the configuration has been
parsed: an empty or missing repository list prints a notice and returns
normally (exit status 0) without any network call; otherwise every
repository is processed in declaration order.  The model is a total
function, matching the fact that the loop body catches every per-artifact
error. -/
def mainSync (cfg : Config) (env : SyncEnv) : List LogEvent × List GHRequest :=
  match cfg.repositories with
  | none => ([.noRepositories], [])
  | some rs =>
    if rs = [] then ([.noRepositories], [])
    else joinResults (rs.map (processRepo env))

/-- Models one iteration of the per-repository loop of `main` in
set-secrets.ts: set the GEMINI_API_KEY secret inside a try/catch. -/
def secretStep (oracle : Oracle) (sealFn : Seal) (geminiApiKey : String)
    (rc : RepositoryConfig) : List LogEvent × List GHRequest :=
  let owner := parseOwner rc.name
  let repo := parseRepo rc.name
  match setSecret oracle sealFn owner repo "GEMINI_API_KEY" geminiApiKey with
  | (.ok _, tr) => ([.secretSet rc.name], tr)
  | (.error msg, tr) => ([.secretError rc.name msg], tr)

/-- Models `main` of set-secrets.ts after the configuration has been
parsed. -/
def mainSetSecrets (cfg : Config) (oracle : Oracle) (sealFn : Seal)
    (geminiApiKey : String) : List LogEvent × List GHRequest :=
  match cfg.repositories with
  | none => ([.noRepositories], [])
  | some rs =>
    if rs = [] then ([.noRepositories], [])
    else joinResults (rs.map (secretStep oracle sealFn geminiApiKey))

/-! ## Derived notions used by the statements -/

/-- The write calls of a request trace: everything that is not a GET. -/
def writeReqs (tr : List GHRequest) : List GHRequest :=
  tr.filter fun r => r.method != Method.GET

/-- An update write: a file PUT whose body carries a version token. -/
def isUpdateWrite (r : GHRequest) : Bool :=
  match r.body with
  | .putFile _ _ (some _) _ => true
  | _ => false

/-- A create write: a file PUT whose body carries no version token. -/
def isCreateWrite (r : GHRequest) : Bool :=
  match r.body with
  | .putFile _ _ none _ => true
  | _ => false

/-- A single-file view of the remote store: either absent or present with
base64 content and a version token. -/
structure FileStore where
  file : Option (String × String)
deriving DecidableEq, Repr

/-- The oracle of a single-file store: a GET returns the stored file (404
when absent) and every write succeeds.  This models a healthy store that
is not modified by anyone else during the runs. -/
def storeOracle (st : FileStore) : Oracle := fun req =>
  match req.method with
  | .GET =>
    match st.file with
    | some (c, sha) => .ok (.fileResp c sha)
    | none => .error ⟨404, "Not Found"⟩
  | _ => .ok .empty

/-- The effect of a request on the single-file store: a file PUT stores
the carried content under a store-chosen fresh version token. -/
def storeStep (newSha : String) (st : FileStore) (req : GHRequest) : FileStore :=
  match req.body with
  | .putFile _ c _ _ => ⟨some (c, newSha)⟩
  | _ => st

/-- Demo oracle: every file GET finds content B (base64 Qg==) at version
token v2, every write succeeds. -/
def oracleUpdateDemo : Oracle := fun req =>
  match req.method with
  | .GET => .ok (.fileResp "Qg==" "v2")
  | _ => .ok .empty

/-- Demo oracle: every GET reports a plain 404 (absent file or variable),
every write succeeds. -/
def oracleAbsentDemo : Oracle := fun req =>
  match req.method with
  | .GET => .error ⟨404, "Not Found"⟩
  | _ => .ok .empty

/-- Demo oracle: every GET answers the public-key response with key id
kid1 and base64 key a2V5, every write succeeds. -/
def oracleKeyDemo : Oracle := fun req =>
  match req.method with
  | .GET => .ok (.keyResp "kid1" "a2V5")
  | _ => .ok .empty

/-- Demo oracle: the file GET fails with status 500 and a body text that
happens to contain the digits 404; writes succeed. -/
def oracle404Body : Oracle := fun req =>
  match req.method with
  | .GET => .error ⟨500, "route 404 missing"⟩
  | _ => .ok .empty

/-- Demo oracle: the read finds content B at version v2, the update write
itself fails with status 500 and a body containing the digits 404, and
the create write succeeds. -/
def oracleUpd404 : Oracle := fun req =>
  match req.body with
  | .putFile _ _ (some _) _ => .error ⟨500, "x404x"⟩
  | .putFile _ _ none _ => .ok .empty
  | _ => .ok (.fileResp "Qg==" "v2")

/-- Demo oracle: the variable read succeeds, the variable update write
fails with status 500 and a body containing the digits 404, and the
variable create write succeeds. -/
def oracleVar404 : Oracle := fun req =>
  match req.method with
  | .PATCH => .error ⟨500, "y404y"⟩
  | _ => .ok .empty

/-- Environment for the failure-isolation run: the repository declares
one workflow with two auxiliary command files; the read of the first
command file fails with a plain 500 while everything else is absent
remotely and writable. -/
def envC4 : SyncEnv where
  oracle := fun req =>
    if req.endpoint
        = fileEndpoint "acme" "widgets" ".github/commands/a.md" ++ "?ref=main" then
      .error ⟨500, "Internal Server Error"⟩
    else
      match req.method with
      | .GET => .error ⟨404, "Not Found"⟩
      | _ => .ok .empty
  readFile := fun p =>
    if p = "templates/ci.yml" then .ok "T"
    else if p = "templates/.github/commands/a.md" then .ok "A1"
    else if p = "templates/.github/commands/b.md" then .ok "B1"
    else .error "ENOENT: no such file"
  commandsDir := .ok (.file "a.md" (.file "b.md" .nil))

/-- The configuration used for the failure-isolation run. -/
def cfgC4 : Config :=
  ⟨some [⟨"acme/widgets", some ["ci"], none, none⟩]⟩

/-- Environment where the RUNS_ON variable endpoints fail with a plain
500 while files are absent remotely and writable, and there is no
auxiliary command directory. -/
def envC8 : SyncEnv where
  oracle := fun req =>
    if req.endpoint = varEndpoint "acme" "widgets" "RUNS_ON" then .error ⟨500, "boom"⟩
    else
      match req.method with
      | .GET => .error ⟨404, "Not Found"⟩
      | _ => .ok .empty
  readFile := fun p =>
    if p = "templates/ci.yml" then .ok "T" else .error "ENOENT: no such file"
  commandsDir := .error "ENOENT: no such directory"

/-- A repository declaring a runtime target and one workflow. -/
def rcC8 : RepositoryConfig :=
  ⟨"acme/widgets", some ["ci"], none, some "ubuntu"⟩

/-! ## Codec lemmas -/

/-- The base64 alphabet map and its inverse cancel on 6-bit values. -/
theorem b64Val_b64Char : ∀ n < 64, b64Val (b64Char n) = some n := by decide

/-- Padding characters carry no 6-bit value. -/
theorem b64Val_eq : b64Val '=' = none := by decide

/-- Base64 decoding recovers the bytes that were encoded. -/
theorem b64DecodeBytes_b64EncodeBytes (bs : List Nat) (h : ∀ b ∈ bs, b < 256) :
    b64DecodeBytes (b64EncodeBytes bs) = bs := by
  induction bs using b64EncodeBytes.induct with
  | case1 => rfl
  | case2 b1 =>
    have h1 : b1 < 256 := h b1 (by simp)
    simp only [b64EncodeBytes, b64DecodeBytes, List.filterMap_cons,
      b64Val_b64Char (b1 / 4) (by omega), b64Val_b64Char (b1 % 4 * 16) (by omega),
      b64Val_eq, List.filterMap_nil, b64DecodeVals]
    simp only [List.cons.injEq, and_true]
    omega
  | case3 b1 b2 =>
    have h1 : b1 < 256 := h b1 (by simp)
    have h2 : b2 < 256 := h b2 (by simp)
    simp only [b64EncodeBytes, b64DecodeBytes, List.filterMap_cons,
      b64Val_b64Char (b1 / 4) (by omega), b64Val_b64Char (b1 % 4 * 16 + b2 / 16) (by omega),
      b64Val_b64Char (b2 % 16 * 4) (by omega),
      b64Val_eq, List.filterMap_nil, b64DecodeVals]
    simp only [List.cons.injEq, and_true]
    constructor
    · omega
    · omega
  | case4 b1 b2 b3 rest ih =>
    have h1 : b1 < 256 := h b1 (by simp)
    have h2 : b2 < 256 := h b2 (by simp)
    have h3 : b3 < 256 := h b3 (by simp)
    have hrest : ∀ b ∈ rest, b < 256 := fun b hb => h b (by simp [hb])
    simp only [b64EncodeBytes, b64DecodeBytes, List.filterMap_cons,
      b64Val_b64Char (b1 / 4) (by omega), b64Val_b64Char (b1 % 4 * 16 + b2 / 16) (by omega),
      b64Val_b64Char (b2 % 16 * 4 + b3 / 64) (by omega), b64Val_b64Char (b3 % 64) (by omega),
      b64DecodeVals] at ih ⊢
    simp only [List.cons.injEq]
    refine ⟨by omega, by omega, by omega, ?_⟩
    exact ih hrest

/-- The scalar value of a character is a valid Unicode scalar value. -/
theorem char_toNat_valid (c : Char) :
    c.toNat < 0xD800 ∨ (0xDFFF < c.toNat ∧ c.toNat < 0x110000) := c.valid

/-- Every byte of the UTF-8 encoding of a character fits in a byte. -/
theorem utf8EncodeChar_lt (c : Char) : ∀ b ∈ utf8EncodeChar c, b < 256 := by
  have hv := char_toNat_valid c
  intro b hb
  simp only [utf8EncodeChar] at hb
  split at hb <;> [skip; split at hb] <;> [skip; skip; split at hb] <;>
    simp only [List.mem_cons, List.mem_singleton, List.not_mem_nil, or_false] at hb <;>
    rcases hb with hb | hb | hb | hb <;> omega


/-- Decoding one step from the head of the encoding of a character yields
that character and leaves exactly the appended rest. -/
theorem utf8DecodeStep_encodeChar (c : Char) (rest : List Nat) :
    ∃ h t, utf8EncodeChar c = h :: t ∧ utf8DecodeStep h (t ++ rest) = (c, rest) := by
  have hv := char_toNat_valid c
  by_cases h1 : c.toNat < 0x80
  · refine ⟨c.toNat, [], ?_, ?_⟩
    · simp only [utf8EncodeChar]; rw [if_pos h1]
    · simp only [List.nil_append, utf8DecodeStep]
      rw [if_pos h1, Char.ofNat_toNat]
  · by_cases h2 : c.toNat < 0x800
    · refine ⟨0xC0 + c.toNat / 0x40, [0x80 + c.toNat % 0x40], ?_, ?_⟩
      · simp only [utf8EncodeChar]; rw [if_neg h1, if_pos h2]
      · simp only [List.cons_append, List.nil_append, utf8DecodeStep]
        rw [if_neg (by omega), if_neg (by omega), if_pos (by omega), if_pos (by omega)]
        have harith : (0xC0 + c.toNat / 0x40 - 0xC0) * 0x40 + (0x80 + c.toNat % 0x40 - 0x80)
            = c.toNat := by omega
        rw [harith, Char.ofNat_toNat]
    · by_cases h3 : c.toNat < 0x10000
      · refine ⟨0xE0 + c.toNat / 0x1000,
          [0x80 + c.toNat / 0x40 % 0x40, 0x80 + c.toNat % 0x40], ?_, ?_⟩
        · simp only [utf8EncodeChar]; rw [if_neg h1, if_neg h2, if_pos h3]
        · simp only [List.cons_append, List.nil_append, utf8DecodeStep]
          rw [if_neg (by omega), if_neg (by omega), if_neg (by omega), if_pos (by omega),
            if_pos (by omega), if_neg (by omega)]
          have harith : (0xE0 + c.toNat / 0x1000 - 0xE0) * 0x1000 +
              (0x80 + c.toNat / 0x40 % 0x40 - 0x80) * 0x40 + (0x80 + c.toNat % 0x40 - 0x80)
              = c.toNat := by omega
          rw [harith, Char.ofNat_toNat]
      · refine ⟨0xF0 + c.toNat / 0x40000,
          [0x80 + c.toNat / 0x1000 % 0x40, 0x80 + c.toNat / 0x40 % 0x40,
            0x80 + c.toNat % 0x40], ?_, ?_⟩
        · simp only [utf8EncodeChar]; rw [if_neg h1, if_neg h2, if_neg h3]
        · simp only [List.cons_append, List.nil_append, utf8DecodeStep]
          rw [if_neg (by omega), if_neg (by omega), if_neg (by omega), if_neg (by omega),
            if_pos (by omega), if_pos (by omega), if_neg (by omega)]
          have harith : (0xF0 + c.toNat / 0x40000 - 0xF0) * 0x40000 +
              (0x80 + c.toNat / 0x1000 % 0x40 - 0x80) * 0x1000 +
              (0x80 + c.toNat / 0x40 % 0x40 - 0x80) * 0x40 + (0x80 + c.toNat % 0x40 - 0x80)
              = c.toNat := by omega
          rw [harith, Char.ofNat_toNat]

/-- The decoding loop recovers the encoded character list, for any
sufficient fuel. -/
theorem utf8DecodeGo_encode (cs : List Char) :
    ∀ fuel, (cs.map utf8EncodeChar).flatten.length ≤ fuel →
      utf8DecodeGo fuel (cs.map utf8EncodeChar).flatten = cs := by
  induction cs with
  | nil => intro fuel _; cases fuel <;> rfl
  | cons c cs ih =>
    intro fuel hfuel
    obtain ⟨h, t, henc, hstep⟩ := utf8DecodeStep_encodeChar c (cs.map utf8EncodeChar).flatten
    simp only [List.map_cons, List.flatten_cons] at hfuel ⊢
    rw [henc] at hfuel ⊢
    simp only [List.cons_append, List.length_cons, List.length_append] at hfuel
    obtain ⟨fuel2, rfl⟩ : ∃ f, fuel = f + 1 := ⟨fuel - 1, by omega⟩
    rw [List.cons_append, utf8DecodeGo, hstep]
    simp only
    rw [ih fuel2 (by omega)]

/-- UTF-8 decoding recovers an encoded string. -/
theorem utf8Decode_utf8Encode (s : String) : utf8Decode (utf8Encode s) = s := by
  obtain ⟨cs⟩ := s
  show utf8Decode (utf8Encode ⟨cs⟩) = ⟨cs⟩
  simp only [utf8Decode, utf8Encode, utf8DecodeLoop]
  congr 1
  exact utf8DecodeGo_encode cs _ (le_refl _)

/-- Every byte of the UTF-8 encoding of a string fits in a byte. -/
theorem utf8Encode_lt (s : String) : ∀ b ∈ utf8Encode s, b < 256 := by
  intro b hb
  simp only [utf8Encode, List.mem_flatten, List.mem_map] at hb
  obtain ⟨l, ⟨c, _, rfl⟩, hbl⟩ := hb
  exact utf8EncodeChar_lt c b hbl

/-- The transport codec round trip: decoding an encoded string recovers
the string.  This is what makes the second reconciliation run observe
content equal to the desired content. -/
theorem decodeBase64_encodeBase64 (s : String) : decodeBase64 (encodeBase64 s) = s := by
  have hd : (⟨b64EncodeBytes (utf8Encode s)⟩ : String).data = b64EncodeBytes (utf8Encode s) :=
    rfl
  simp only [decodeBase64, encodeBase64, hd]
  rw [b64DecodeBytes_b64EncodeBytes (utf8Encode s) (utf8Encode_lt s), utf8Decode_utf8Encode]

/-! ## Lemmas about the 404 substring test -/

/-- A substring found in a list is still found after appending. -/
theorem listIncludes_append_left (xs ys sub : List Char)
    (h : listIncludes xs sub = true) : listIncludes (xs ++ ys) sub = true := by
  induction xs with
  | nil =>
    cases sub with
    | nil =>
      cases ys with
      | nil => rfl
      | cons y ys => rfl
    | cons s ss => simp [listIncludes] at h
  | cons c cs ih =>
    cases sub with
    | nil =>
      cases cs ++ ys with
      | nil => rfl
      | cons z zs => rfl
    | cons s ss =>
      rw [List.cons_append]
      rw [listIncludes] at h ⊢
      simp only [Bool.or_eq_true] at h ⊢
      rcases h with h | h
      · left
        rw [List.isPrefixOf_iff_prefix] at h ⊢
        rw [← List.cons_append]
        exact h.trans (List.prefix_append _ _)
      · right
        exact ih h

/-- The thrown message of a 404 response always contains the substring
404, whatever the response body text. -/
theorem strIncludes_errMessage_404 (body : String) :
    strIncludes (errMessage ⟨404, body⟩) "404" = true := by
  show listIncludes ((("GitHub API error: " ++ toString (404 : Nat)) ++ " " ++ body)).data
    "404".data = true
  rw [String.data_append]
  exact listIncludes_append_left _ _ _ (by decide)

/-! ## Branch lemmas for syncFile -/

/-- Read succeeded and the decoded content equals the desired content:
the attempt is a no-op. -/
theorem syncFileTry_ok_eq (oracle : Oracle) (owner repo filePath content branch c sha : String)
    (hget : oracle (fileGetReq owner repo filePath branch) = .ok (.fileResp c sha))
    (hdec : decodeBase64 c = content) :
    syncFileTry oracle owner repo filePath content branch
      = (.ok .unchanged, [fileGetReq owner repo filePath branch]) := by
  simp [syncFileTry, githubRequest, hget, hdec]

/-- Read succeeded, contents differ, and the update write succeeded. -/
theorem syncFileTry_ok_ne_updOk (oracle : Oracle)
    (owner repo filePath content branch c sha : String) (v : GHValue)
    (hget : oracle (fileGetReq owner repo filePath branch) = .ok (.fileResp c sha))
    (hdec : decodeBase64 c ≠ content)
    (hput : oracle (updatePutReq owner repo filePath content sha branch) = .ok v) :
    syncFileTry oracle owner repo filePath content branch
      = (.ok .updated, [fileGetReq owner repo filePath branch,
          updatePutReq owner repo filePath content sha branch]) := by
  simp [syncFileTry, githubRequest, hget, hdec, hput]

/-- Read succeeded, contents differ, and the update write failed: the
message of the update failure is rethrown out of the try block. -/
theorem syncFileTry_ok_ne_updErr (oracle : Oracle)
    (owner repo filePath content branch c sha : String) (e : HttpError)
    (hget : oracle (fileGetReq owner repo filePath branch) = .ok (.fileResp c sha))
    (hdec : decodeBase64 c ≠ content)
    (hput : oracle (updatePutReq owner repo filePath content sha branch) = .error e) :
    syncFileTry oracle owner repo filePath content branch
      = (.error (errMessage e), [fileGetReq owner repo filePath branch,
          updatePutReq owner repo filePath content sha branch]) := by
  simp [syncFileTry, githubRequest, hget, hdec, hput]

/-- Read failed: the error message is passed to the catch block. -/
theorem syncFileTry_err (oracle : Oracle) (owner repo filePath content branch : String)
    (e : HttpError)
    (hget : oracle (fileGetReq owner repo filePath branch) = .error e) :
    syncFileTry oracle owner repo filePath content branch
      = (.error (errMessage e), [fileGetReq owner repo filePath branch]) := by
  simp [syncFileTry, githubRequest, hget]

/-- A caught message containing 404 and a successful create write. -/
theorem syncFileCatch_404_ok (oracle : Oracle)
    (owner repo filePath content branch msg : String) (tr : List GHRequest) (v : GHValue)
    (h404 : strIncludes msg "404" = true)
    (hcre : oracle (createPutReq owner repo filePath content branch) = .ok v) :
    syncFileCatch oracle owner repo filePath content branch msg tr
      = (.ok .created, tr ++ [createPutReq owner repo filePath content branch]) := by
  simp [syncFileCatch, githubRequest, h404, hcre]

/-- A caught message containing 404 and a failing create write. -/
theorem syncFileCatch_404_err (oracle : Oracle)
    (owner repo filePath content branch msg : String) (tr : List GHRequest) (e : HttpError)
    (h404 : strIncludes msg "404" = true)
    (hcre : oracle (createPutReq owner repo filePath content branch) = .error e) :
    syncFileCatch oracle owner repo filePath content branch msg tr
      = (.error (errMessage e), tr ++ [createPutReq owner repo filePath content branch]) := by
  simp [syncFileCatch, githubRequest, h404, hcre]

/-- A caught message not containing 404 is rethrown unchanged. -/
theorem syncFileCatch_no404 (oracle : Oracle)
    (owner repo filePath content branch msg : String) (tr : List GHRequest)
    (h404 : strIncludes msg "404" = false) :
    syncFileCatch oracle owner repo filePath content branch msg tr = (.error msg, tr) := by
  simp [syncFileCatch, h404]

/-- A try block that returned an outcome bypasses the catch block. -/
theorem syncFile_of_tryOk (oracle : Oracle) (owner repo filePath content branch : String)
    (o : Outcome) (tr : List GHRequest)
    (h : syncFileTry oracle owner repo filePath content branch = (.ok o, tr)) :
    syncFile oracle owner repo filePath content branch = (.ok o, tr) := by
  simp [syncFile, h]

/-- A try block that threw hands its message and requests to the catch
block. -/
theorem syncFile_of_tryErr (oracle : Oracle) (owner repo filePath content branch msg : String)
    (tr : List GHRequest)
    (h : syncFileTry oracle owner repo filePath content branch = (.error msg, tr)) :
    syncFile oracle owner repo filePath content branch
      = syncFileCatch oracle owner repo filePath content branch msg tr := by
  simp [syncFile, h]

/-- A successful read whose parsed body is a public-key response has no
content field: the decode throws a TypeError. -/
theorem syncFileTry_ok_keyResp (oracle : Oracle)
    (owner repo filePath content branch kid k : String)
    (hget : oracle (fileGetReq owner repo filePath branch) = .ok (.keyResp kid k)) :
    syncFileTry oracle owner repo filePath content branch
      = (.error "TypeError", [fileGetReq owner repo filePath branch]) := by
  simp [syncFileTry, githubRequest, hget]

/-- A successful read with an empty parsed body has no content field:
the decode throws a TypeError. -/
theorem syncFileTry_ok_empty (oracle : Oracle) (owner repo filePath content branch : String)
    (hget : oracle (fileGetReq owner repo filePath branch) = .ok .empty) :
    syncFileTry oracle owner repo filePath content branch
      = (.error "TypeError", [fileGetReq owner repo filePath branch]) := by
  simp [syncFileTry, githubRequest, hget]

/-! ## Claim C1 -/

/-- C1: in every syncFile reconciliation attempt, an update write (a PUT
whose body carries a version token) is issued only if that token is
exactly the sha observed in the successful read of the same path and
branch performed first in the same attempt.  In particular, when no
successful read occurred no update write is issued, so any write issued
is a create carrying no version token. -/
theorem claim_C1_update_carries_observed_sha
    (oracle : Oracle) (owner repo filePath content branch : String)
    (req : GHRequest)
    (hmem : req ∈ (syncFile oracle owner repo filePath content branch).2)
    (m c sha b : String)
    (hbody : req.body = .putFile m c (some sha) b) :
    ∃ cb, oracle (fileGetReq owner repo filePath branch) = .ok (.fileResp cb sha) := by
  cases hget : oracle (fileGetReq owner repo filePath branch) with
  | ok v =>
    cases v with
    | fileResp c0 sha0 =>
      by_cases hdec : decodeBase64 c0 = content
      · rw [syncFile_of_tryOk oracle owner repo filePath content branch _ _
          (syncFileTry_ok_eq oracle owner repo filePath content branch c0 sha0 hget hdec)]
          at hmem
        simp only [List.mem_singleton] at hmem
        rw [hmem] at hbody
        simp [fileGetReq] at hbody
      · cases hput : oracle (updatePutReq owner repo filePath content sha0 branch) with
        | ok v2 =>
          rw [syncFile_of_tryOk oracle owner repo filePath content branch _ _
            (syncFileTry_ok_ne_updOk oracle owner repo filePath content branch c0 sha0 v2
              hget hdec hput)] at hmem
          simp only [List.mem_cons, List.mem_singleton, List.not_mem_nil, or_false] at hmem
          rcases hmem with rfl | rfl
          · simp [fileGetReq] at hbody
          · simp only [updatePutReq, ReqBody.putFile.injEq, Option.some.injEq] at hbody
            obtain ⟨_, _, hsha, _⟩ := hbody
            exact ⟨c0, by rw [hsha]⟩
        | error e =>
          rw [syncFile_of_tryErr oracle owner repo filePath content branch _ _
            (syncFileTry_ok_ne_updErr oracle owner repo filePath content branch c0 sha0 e
              hget hdec hput)] at hmem
          by_cases h404 : strIncludes (errMessage e) "404" = true
          · cases hcre : oracle (createPutReq owner repo filePath content branch) with
            | ok v3 =>
              rw [syncFileCatch_404_ok oracle owner repo filePath content branch _ _ v3
                h404 hcre] at hmem
              simp only [List.append_assoc, List.cons_append, List.nil_append,
                List.mem_cons, List.mem_singleton, List.not_mem_nil, or_false] at hmem
              rcases hmem with rfl | rfl | rfl
              · simp [fileGetReq] at hbody
              · simp only [updatePutReq, ReqBody.putFile.injEq, Option.some.injEq] at hbody
                obtain ⟨_, _, hsha, _⟩ := hbody
                exact ⟨c0, by rw [hsha]⟩
              · simp [createPutReq] at hbody
            | error e2 =>
              rw [syncFileCatch_404_err oracle owner repo filePath content branch _ _ e2
                h404 hcre] at hmem
              simp only [List.append_assoc, List.cons_append, List.nil_append,
                List.mem_cons, List.mem_singleton, List.not_mem_nil, or_false] at hmem
              rcases hmem with rfl | rfl | rfl
              · simp [fileGetReq] at hbody
              · simp only [updatePutReq, ReqBody.putFile.injEq, Option.some.injEq] at hbody
                obtain ⟨_, _, hsha, _⟩ := hbody
                exact ⟨c0, by rw [hsha]⟩
              · simp [createPutReq] at hbody
          · rw [syncFileCatch_no404 oracle owner repo filePath content branch _ _
              (by simpa using h404)] at hmem
            simp only [List.mem_cons, List.mem_singleton, List.not_mem_nil, or_false] at hmem
            rcases hmem with rfl | rfl
            · simp [fileGetReq] at hbody
            · simp only [updatePutReq, ReqBody.putFile.injEq, Option.some.injEq] at hbody
              obtain ⟨_, _, hsha, _⟩ := hbody
              exact ⟨c0, by rw [hsha]⟩
    | keyResp kid k =>
      rw [syncFile_of_tryErr oracle owner repo filePath content branch _ _
        (syncFileTry_ok_keyResp oracle owner repo filePath content branch kid k hget)] at hmem
      rw [syncFileCatch_no404 oracle owner repo filePath content branch _ _ (by decide)] at hmem
      simp only [List.mem_singleton] at hmem
      rw [hmem] at hbody
      simp [fileGetReq] at hbody
    | empty =>
      rw [syncFile_of_tryErr oracle owner repo filePath content branch _ _
        (syncFileTry_ok_empty oracle owner repo filePath content branch hget)] at hmem
      rw [syncFileCatch_no404 oracle owner repo filePath content branch _ _ (by decide)] at hmem
      simp only [List.mem_singleton] at hmem
      rw [hmem] at hbody
      simp [fileGetReq] at hbody
  | error e =>
    rw [syncFile_of_tryErr oracle owner repo filePath content branch _ _
      (syncFileTry_err oracle owner repo filePath content branch e hget)] at hmem
    by_cases h404 : strIncludes (errMessage e) "404" = true
    · cases hcre : oracle (createPutReq owner repo filePath content branch) with
      | ok v3 =>
        rw [syncFileCatch_404_ok oracle owner repo filePath content branch _ _ v3
          h404 hcre] at hmem
        simp only [List.cons_append, List.nil_append, List.mem_cons, List.mem_singleton,
          List.not_mem_nil, or_false] at hmem
        rcases hmem with rfl | rfl
        · simp [fileGetReq] at hbody
        · simp [createPutReq] at hbody
      | error e2 =>
        rw [syncFileCatch_404_err oracle owner repo filePath content branch _ _ e2
          h404 hcre] at hmem
        simp only [List.cons_append, List.nil_append, List.mem_cons, List.mem_singleton,
          List.not_mem_nil, or_false] at hmem
        rcases hmem with rfl | rfl
        · simp [fileGetReq] at hbody
        · simp [createPutReq] at hbody
    · rw [syncFileCatch_no404 oracle owner repo filePath content branch _ _
        (by simpa using h404)] at hmem
      simp only [List.mem_singleton] at hmem
      rw [hmem] at hbody
      simp [fileGetReq] at hbody

/-- Witness for C1: with a store holding content B at version v2 and a
desired content A, the attempt issues an update write and the observed
token is exactly the version read. -/
theorem claim_C1_witness :
    ∃ cb, oracleUpdateDemo (fileGetReq "acme" "widgets" ".github/workflows/ci.yml" "main")
      = .ok (.fileResp cb "v2") :=
  claim_C1_update_carries_observed_sha oracleUpdateDemo "acme" "widgets"
    ".github/workflows/ci.yml" "A" "main"
    (updatePutReq "acme" "widgets" ".github/workflows/ci.yml" "A" "v2" "main")
    (by decide)
    ("Update workflow: " ++ basename ".github/workflows/ci.yml") (encodeBase64 "A") "v2" "main"
    rfl

/-! ## Claim C2 -/

/-- C2: when the read of the existing file succeeds, syncFile returns
unchanged with zero write calls exactly when the decoded remote content
equals the desired content; when the contents differ it issues exactly one
update write, carrying the desired content and the observed version token,
the outcome is never unchanged, and if that update write succeeds the
outcome is updated with no further call. -/
theorem claim_C2_byte_equality_gate
    (oracle : Oracle) (owner repo filePath content branch c sha : String)
    (hget : oracle (fileGetReq owner repo filePath branch) = .ok (.fileResp c sha)) :
    (((syncFile oracle owner repo filePath content branch).1 = .ok .unchanged ∧
        writeReqs (syncFile oracle owner repo filePath content branch).2 = [])
      ↔ decodeBase64 c = content) ∧
    (decodeBase64 c ≠ content →
      (syncFile oracle owner repo filePath content branch).2.filter isUpdateWrite
        = [updatePutReq owner repo filePath content sha branch] ∧
      (syncFile oracle owner repo filePath content branch).1 ≠ .ok .unchanged ∧
      ∀ v, oracle (updatePutReq owner repo filePath content sha branch) = .ok v →
        syncFile oracle owner repo filePath content branch
          = (.ok .updated, [fileGetReq owner repo filePath branch,
              updatePutReq owner repo filePath content sha branch])) := by
  by_cases hdec : decodeBase64 c = content
  · have hs := syncFile_of_tryOk oracle owner repo filePath content branch _ _
      (syncFileTry_ok_eq oracle owner repo filePath content branch c sha hget hdec)
    constructor
    · rw [hs]
      simp [writeReqs, fileGetReq, hdec]
    · intro hne
      exact absurd hdec hne
  · cases hput : oracle (updatePutReq owner repo filePath content sha branch) with
    | ok v2 =>
      have hs := syncFile_of_tryOk oracle owner repo filePath content branch _ _
        (syncFileTry_ok_ne_updOk oracle owner repo filePath content branch c sha v2
          hget hdec hput)
      refine ⟨?_, fun _ => ⟨?_, ?_, ?_⟩⟩
      · rw [hs]; simp [hdec]
      · rw [hs]; simp [List.filter, isUpdateWrite, fileGetReq, updatePutReq]
      · rw [hs]; simp
      · intro v hv; rw [hs]
    | error e =>
      have hs0 := syncFile_of_tryErr oracle owner repo filePath content branch _ _
        (syncFileTry_ok_ne_updErr oracle owner repo filePath content branch c sha e
          hget hdec hput)
      by_cases h404 : strIncludes (errMessage e) "404" = true
      · cases hcre : oracle (createPutReq owner repo filePath content branch) with
        | ok v3 =>
          rw [syncFileCatch_404_ok oracle owner repo filePath content branch _ _ v3
            h404 hcre] at hs0
          refine ⟨?_, fun _ => ⟨?_, ?_, ?_⟩⟩
          · rw [hs0]; simp [hdec]
          · rw [hs0]
            simp [List.filter, isUpdateWrite, fileGetReq, updatePutReq, createPutReq]
          · rw [hs0]; simp
          · intro v hv
            simp at hv
        | error e2 =>
          rw [syncFileCatch_404_err oracle owner repo filePath content branch _ _ e2
            h404 hcre] at hs0
          refine ⟨?_, fun _ => ⟨?_, ?_, ?_⟩⟩
          · rw [hs0]; simp [hdec]
          · rw [hs0]
            simp [List.filter, isUpdateWrite, fileGetReq, updatePutReq, createPutReq]
          · rw [hs0]; simp
          · intro v hv
            simp at hv
      · rw [syncFileCatch_no404 oracle owner repo filePath content branch _ _
          (by simpa using h404)] at hs0
        refine ⟨?_, fun _ => ⟨?_, ?_, ?_⟩⟩
        · rw [hs0]; simp [hdec]
        · rw [hs0]; simp [List.filter, isUpdateWrite, fileGetReq, updatePutReq]
        · rw [hs0]; simp
        · intro v hv
          simp at hv

/-- Witness for C2: remote content B, desired content A (a one-byte
difference): the gate classifies as changed, one update write carrying A
and token v2 is issued, and the outcome is updated. -/
theorem claim_C2_witness :
    (((syncFile oracleUpdateDemo "acme" "widgets" ".github/workflows/ci.yml" "A" "main").1
          = .ok .unchanged ∧
        writeReqs (syncFile oracleUpdateDemo "acme" "widgets" ".github/workflows/ci.yml"
          "A" "main").2 = [])
      ↔ decodeBase64 "Qg==" = "A") ∧
    (decodeBase64 "Qg==" ≠ "A" →
      (syncFile oracleUpdateDemo "acme" "widgets" ".github/workflows/ci.yml" "A"
          "main").2.filter isUpdateWrite
        = [updatePutReq "acme" "widgets" ".github/workflows/ci.yml" "A" "v2" "main"] ∧
      (syncFile oracleUpdateDemo "acme" "widgets" ".github/workflows/ci.yml" "A" "main").1
        ≠ .ok .unchanged ∧
      ∀ v, oracleUpdateDemo (updatePutReq "acme" "widgets" ".github/workflows/ci.yml" "A"
          "v2" "main") = .ok v →
        syncFile oracleUpdateDemo "acme" "widgets" ".github/workflows/ci.yml" "A" "main"
          = (.ok .updated, [fileGetReq "acme" "widgets" ".github/workflows/ci.yml" "main",
              updatePutReq "acme" "widgets" ".github/workflows/ci.yml" "A" "v2" "main"])) :=
  claim_C2_byte_equality_gate oracleUpdateDemo "acme" "widgets" ".github/workflows/ci.yml"
    "A" "main" "Qg==" "v2" (by decide)

/-! ## Claim C3 -/

/-- C3: when the read of the existing file fails with a not-found signal
(status 404), syncFile issues exactly one create write, a PUT carrying
the encoded desired content and no version token, and when the create
write succeeds the outcome is created. -/
theorem claim_C3_not_found_creates
    (oracle : Oracle) (owner repo filePath content branch : String) (e : HttpError)
    (hget : oracle (fileGetReq owner repo filePath branch) = .error e)
    (h404 : e.status = 404) :
    (syncFile oracle owner repo filePath content branch).2
      = [fileGetReq owner repo filePath branch,
         createPutReq owner repo filePath content branch] ∧
    writeReqs (syncFile oracle owner repo filePath content branch).2
      = [createPutReq owner repo filePath content branch] ∧
    isCreateWrite (createPutReq owner repo filePath content branch) = true ∧
    (∀ v, oracle (createPutReq owner repo filePath content branch) = .ok v →
      (syncFile oracle owner repo filePath content branch).1 = .ok .created) := by
  obtain ⟨st, body⟩ := e
  simp only at h404
  subst h404
  have hmsg : strIncludes (errMessage ⟨404, body⟩) "404" = true :=
    strIncludes_errMessage_404 body
  have hs0 := syncFile_of_tryErr oracle owner repo filePath content branch _ _
    (syncFileTry_err oracle owner repo filePath content branch _ hget)
  cases hcre : oracle (createPutReq owner repo filePath content branch) with
  | ok v =>
    rw [syncFileCatch_404_ok oracle owner repo filePath content branch _ _ v hmsg hcre] at hs0
    rw [hs0]
    refine ⟨rfl, rfl, rfl, ?_⟩
    intro v2 _
    rfl
  | error e2 =>
    rw [syncFileCatch_404_err oracle owner repo filePath content branch _ _ e2 hmsg hcre]
      at hs0
    rw [hs0]
    refine ⟨rfl, rfl, rfl, ?_⟩
    intro v2 hv2
    simp at hv2

/-- Witness for C3, the scenario of the spec: repository acme/widgets,
file .github/workflows/ci.yml, desired content A, remote absent: one
create call carrying content A, outcome created. -/
theorem claim_C3_witness :
    (syncFile oracleAbsentDemo "acme" "widgets" ".github/workflows/ci.yml" "A" "main").2
      = [fileGetReq "acme" "widgets" ".github/workflows/ci.yml" "main",
         createPutReq "acme" "widgets" ".github/workflows/ci.yml" "A" "main"] ∧
    writeReqs (syncFile oracleAbsentDemo "acme" "widgets" ".github/workflows/ci.yml" "A"
        "main").2
      = [createPutReq "acme" "widgets" ".github/workflows/ci.yml" "A" "main"] ∧
    isCreateWrite (createPutReq "acme" "widgets" ".github/workflows/ci.yml" "A" "main")
      = true ∧
    (∀ v, oracleAbsentDemo (createPutReq "acme" "widgets" ".github/workflows/ci.yml" "A"
        "main") = .ok v →
      (syncFile oracleAbsentDemo "acme" "widgets" ".github/workflows/ci.yml" "A" "main").1
        = .ok .created) :=
  claim_C3_not_found_creates oracleAbsentDemo "acme" "widgets" ".github/workflows/ci.yml"
    "A" "main" ⟨404, "Not Found"⟩ (by decide) rfl

/-! ## Branch lemmas for setVariable -/

/-- Variable read and update both succeeded. -/
theorem setVariableTry_ok_ok (oracle : Oracle) (owner repo name value : String)
    (v v2 : GHValue)
    (hget : oracle (varGetReq owner repo name) = .ok v)
    (hpatch : oracle (varPatchReq owner repo name value) = .ok v2) :
    setVariableTry oracle owner repo name value
      = (.ok (), [varGetReq owner repo name, varPatchReq owner repo name value]) := by
  simp [setVariableTry, githubRequest, hget, hpatch]

/-- Variable read succeeded, update failed: the update failure message
escapes the try block. -/
theorem setVariableTry_ok_err (oracle : Oracle) (owner repo name value : String)
    (v : GHValue) (e : HttpError)
    (hget : oracle (varGetReq owner repo name) = .ok v)
    (hpatch : oracle (varPatchReq owner repo name value) = .error e) :
    setVariableTry oracle owner repo name value
      = (.error (errMessage e), [varGetReq owner repo name,
          varPatchReq owner repo name value]) := by
  simp [setVariableTry, githubRequest, hget, hpatch]

/-- Variable read failed: the message is passed to the catch block. -/
theorem setVariableTry_err (oracle : Oracle) (owner repo name value : String) (e : HttpError)
    (hget : oracle (varGetReq owner repo name) = .error e) :
    setVariableTry oracle owner repo name value
      = (.error (errMessage e), [varGetReq owner repo name]) := by
  simp [setVariableTry, githubRequest, hget]

/-- A try block of setVariable that returned bypasses the catch block. -/
theorem setVariable_of_tryOk (oracle : Oracle) (owner repo name value : String)
    (u : Unit) (tr : List GHRequest)
    (h : setVariableTry oracle owner repo name value = (.ok u, tr)) :
    setVariable oracle owner repo name value = (.ok u, tr) := by
  simp [setVariable, h]

/-- A try block of setVariable that threw hands control to the catch. -/
theorem setVariable_of_tryErr (oracle : Oracle) (owner repo name value msg : String)
    (tr : List GHRequest)
    (h : setVariableTry oracle owner repo name value = (.error msg, tr)) :
    setVariable oracle owner repo name value
      = setVariableCatch oracle owner repo name value msg tr := by
  simp [setVariable, h]

/-- A caught message containing 404 issues the create write of the
variable; its success case. -/
theorem setVariableCatch_404_ok (oracle : Oracle) (owner repo name value msg : String)
    (tr : List GHRequest) (v : GHValue)
    (h404 : strIncludes msg "404" = true)
    (hpost : oracle (varCreateReq owner repo name value) = .ok v) :
    setVariableCatch oracle owner repo name value msg tr
      = (.ok (), tr ++ [varCreateReq owner repo name value]) := by
  simp [setVariableCatch, githubRequest, h404, hpost]

/-- A caught message containing 404 issues the create write of the
variable; its failure case. -/
theorem setVariableCatch_404_err (oracle : Oracle) (owner repo name value msg : String)
    (tr : List GHRequest) (e : HttpError)
    (h404 : strIncludes msg "404" = true)
    (hpost : oracle (varCreateReq owner repo name value) = .error e) :
    setVariableCatch oracle owner repo name value msg tr
      = (.error (errMessage e), tr ++ [varCreateReq owner repo name value]) := by
  simp [setVariableCatch, githubRequest, h404, hpost]

/-- A caught message not containing 404 is rethrown unchanged. -/
theorem setVariableCatch_no404 (oracle : Oracle) (owner repo name value msg : String)
    (tr : List GHRequest)
    (h404 : strIncludes msg "404" = false) :
    setVariableCatch oracle owner repo name value msg tr = (.error msg, tr) := by
  simp [setVariableCatch, h404]

/-! ## Claim C7 -/

/-- C7: setVariable first reads the existing variable.  When the read
succeeds (variable present) and the update write is accepted, the call
issued exactly one update (PATCH, carrying the value unconditionally,
with no equality check) and zero creates.  When the read fails with a
not-found signal (status 404), exactly one create (POST) and zero
updates are issued, whatever the creates result. -/
theorem claim_C7_variable_create_vs_update (oracle : Oracle) (owner repo name value : String) :
    (∀ v v2, oracle (varGetReq owner repo name) = .ok v →
      oracle (varPatchReq owner repo name value) = .ok v2 →
      setVariable oracle owner repo name value
        = (.ok (), [varGetReq owner repo name, varPatchReq owner repo name value])) ∧
    (∀ e, oracle (varGetReq owner repo name) = .error e → e.status = 404 →
      (setVariable oracle owner repo name value).2
        = [varGetReq owner repo name, varCreateReq owner repo name value]) := by
  constructor
  · intro v v2 hget hpatch
    exact setVariable_of_tryOk oracle owner repo name value _ _
      (setVariableTry_ok_ok oracle owner repo name value v v2 hget hpatch)
  · intro e hget h404
    obtain ⟨st, body⟩ := e
    simp only at h404
    subst h404
    have hmsg : strIncludes (errMessage ⟨404, body⟩) "404" = true :=
      strIncludes_errMessage_404 body
    have hs0 := setVariable_of_tryErr oracle owner repo name value _ _
      (setVariableTry_err oracle owner repo name value _ hget)
    cases hpost : oracle (varCreateReq owner repo name value) with
    | ok v =>
      rw [setVariableCatch_404_ok oracle owner repo name value _ _ v hmsg hpost] at hs0
      rw [hs0]
      rfl
    | error e2 =>
      rw [setVariableCatch_404_err oracle owner repo name value _ _ e2 hmsg hpost] at hs0
      rw [hs0]
      rfl

/-- Witness for C7: a present variable is rewritten through exactly one
PATCH, and an absent one is created through exactly one POST. -/
theorem claim_C7_witness :
    setVariable oracleUpdateDemo "acme" "widgets" "RUNS_ON" "ubuntu-latest"
      = (.ok (), [varGetReq "acme" "widgets" "RUNS_ON",
          varPatchReq "acme" "widgets" "RUNS_ON" "ubuntu-latest"]) ∧
    (setVariable oracleAbsentDemo "acme" "widgets" "RUNS_ON" "ubuntu-latest").2
      = [varGetReq "acme" "widgets" "RUNS_ON",
         varCreateReq "acme" "widgets" "RUNS_ON" "ubuntu-latest"] :=
  ⟨(claim_C7_variable_create_vs_update oracleUpdateDemo "acme" "widgets" "RUNS_ON"
      "ubuntu-latest").1 (.fileResp "Qg==" "v2") .empty (by decide) (by decide),
   (claim_C7_variable_create_vs_update oracleAbsentDemo "acme" "widgets" "RUNS_ON"
      "ubuntu-latest").2 ⟨404, "Not Found"⟩ (by decide) rfl⟩

/-! ## Claim C6 -/

/-- C6: setSecret first fetches the repository public key and key
identifier, then issues exactly one secret write whose payload is the
plaintext sealed under the fetched key and tagged with the fetched key
identifier.  It never reads a secret value (the only GET in the trace is
the public-key fetch) and never skips the write: the trace is the same
whether or not the key was already set, and there is no unchanged
outcome for secrets. -/
theorem claim_C6_secret_always_sealed_write
    (oracle : Oracle) (sealFn : Seal) (owner repo secretName secretValue kid k : String)
    (hpk : oracle (pkGetReq owner repo) = .ok (.keyResp kid k)) :
    (setSecret oracle sealFn owner repo secretName secretValue).2
      = [pkGetReq owner repo,
         secretPutReq owner repo secretName (encryptSecret sealFn k secretValue) kid] ∧
    (∀ req ∈ (setSecret oracle sealFn owner repo secretName secretValue).2,
      req.method = .GET → req = pkGetReq owner repo) := by
  have htr : (setSecret oracle sealFn owner repo secretName secretValue).2
      = [pkGetReq owner repo,
         secretPutReq owner repo secretName (encryptSecret sealFn k secretValue) kid] := by
    cases hput : oracle (secretPutReq owner repo secretName
        (encryptSecret sealFn k secretValue) kid) with
    | ok v => simp [setSecret, githubRequest, hpk, hput]
    | error e => simp [setSecret, githubRequest, hpk, hput]
  refine ⟨htr, ?_⟩
  intro req hreq hmet
  rw [htr] at hreq
  simp only [List.mem_cons, List.mem_singleton, List.not_mem_nil, or_false] at hreq
  rcases hreq with rfl | rfl
  · rfl
  · simp [secretPutReq] at hmet

/-- Witness for C6: with a public key fetch answering key id kid1 and an
identity seal, the one write carries the sealed payload tagged kid1. -/
theorem claim_C6_witness :
    (setSecret oracleKeyDemo (fun m _ => m) "acme" "widgets" "GEMINI_API_KEY" "s3cret").2
      = [pkGetReq "acme" "widgets",
         secretPutReq "acme" "widgets" "GEMINI_API_KEY"
           (encryptSecret (fun m _ => m) "a2V5" "s3cret") "kid1"] ∧
    (∀ req ∈ (setSecret oracleKeyDemo (fun m _ => m) "acme" "widgets" "GEMINI_API_KEY"
        "s3cret").2,
      req.method = .GET → req = pkGetReq "acme" "widgets") :=
  claim_C6_secret_always_sealed_write oracleKeyDemo (fun m _ => m) "acme" "widgets"
    "GEMINI_API_KEY" "s3cret" "kid1" "a2V5" (by decide)

/-! ## Claim C5 -/

/-- C5: running file reconciliation twice against a store that answers
reads from its single-file state and applies the writes of the first run
(with unchanged desired state and no out-of-band modification in
between), the second run returns unchanged for the artifact and issues
zero write calls: its whole request trace is the one read.  This holds
from every initial store state: absent, converged, or diverged. -/
theorem claim_C5_reconciliation_idempotent
    (owner repo filePath content branch newSha : String) (st0 : FileStore) :
    syncFile (storeOracle
        ((syncFile (storeOracle st0) owner repo filePath content branch).2.foldl
          (storeStep newSha) st0))
      owner repo filePath content branch
      = (.ok .unchanged, [fileGetReq owner repo filePath branch]) := by
  obtain ⟨file⟩ := st0
  cases file with
  | none =>
    have hget : storeOracle ⟨none⟩ (fileGetReq owner repo filePath branch)
        = .error ⟨404, "Not Found"⟩ := rfl
    have h1 := syncFile_of_tryErr (storeOracle ⟨none⟩) owner repo filePath content branch _ _
      (syncFileTry_err (storeOracle ⟨none⟩) owner repo filePath content branch _ hget)
    rw [syncFileCatch_404_ok (storeOracle ⟨none⟩) owner repo filePath content branch _ _
      .empty (by decide) rfl] at h1
    rw [h1]
    exact syncFile_of_tryOk _ owner repo filePath content branch _ _
      (syncFileTry_ok_eq _ owner repo filePath content branch (encodeBase64 content) newSha
        rfl (decodeBase64_encodeBase64 content))
  | some pair =>
    obtain ⟨c, sha⟩ := pair
    have hget : storeOracle ⟨some (c, sha)⟩ (fileGetReq owner repo filePath branch)
        = .ok (.fileResp c sha) := rfl
    by_cases hdec : decodeBase64 c = content
    · have h1 := syncFile_of_tryOk (storeOracle ⟨some (c, sha)⟩) owner repo filePath content
        branch _ _
        (syncFileTry_ok_eq (storeOracle ⟨some (c, sha)⟩) owner repo filePath content branch
          c sha hget hdec)
      rw [h1]
      exact syncFile_of_tryOk _ owner repo filePath content branch _ _
        (syncFileTry_ok_eq _ owner repo filePath content branch c sha rfl hdec)
    · have h1 := syncFile_of_tryOk (storeOracle ⟨some (c, sha)⟩) owner repo filePath content
        branch _ _
        (syncFileTry_ok_ne_updOk (storeOracle ⟨some (c, sha)⟩) owner repo filePath content
          branch c sha .empty hget hdec rfl)
      rw [h1]
      exact syncFile_of_tryOk _ owner repo filePath content branch _ _
        (syncFileTry_ok_eq _ owner repo filePath content branch (encodeBase64 content) newSha
          rfl (decodeBase64_encodeBase64 content))

/-! ## Claim C9 -/

/-- C9: not-found classification in syncFile and setVariable is a
substring test for 404 on the thrown message, which is the status code
followed by the response body.  Consequences, each shown on a concrete
run: a file read failing with status 500 whose body text contains 404
takes the create path; a failing update write whose message contains 404
also takes the create path after the update write; and likewise the
variable update failure leads to a variable create, instead of the
failure being reported. -/
theorem claim_C9_not_found_is_substring_test :
    (∀ e : HttpError, errMessage e
      = "GitHub API error: " ++ toString e.status ++ " " ++ e.body) ∧
    syncFile oracle404Body "acme" "widgets" ".github/workflows/ci.yml" "A" "main"
      = (.ok .created,
         [fileGetReq "acme" "widgets" ".github/workflows/ci.yml" "main",
          createPutReq "acme" "widgets" ".github/workflows/ci.yml" "A" "main"]) ∧
    syncFile oracleUpd404 "acme" "widgets" ".github/workflows/ci.yml" "A" "main"
      = (.ok .created,
         [fileGetReq "acme" "widgets" ".github/workflows/ci.yml" "main",
          updatePutReq "acme" "widgets" ".github/workflows/ci.yml" "A" "v2" "main",
          createPutReq "acme" "widgets" ".github/workflows/ci.yml" "A" "main"]) ∧
    setVariable oracleVar404 "acme" "widgets" "RUNS_ON" "ubuntu-latest"
      = (.ok (),
         [varGetReq "acme" "widgets" "RUNS_ON",
          varPatchReq "acme" "widgets" "RUNS_ON" "ubuntu-latest",
          varCreateReq "acme" "widgets" "RUNS_ON" "ubuntu-latest"]) :=
  ⟨fun _ => rfl, by decide, by decide, by decide⟩

/-! ## Claim C10 -/

/-- C10: with a missing or empty repositories list, both drivers print
the no-repositories notice and return normally (the models are total
functions, so the process reaches its final log line and exits with
status 0), issuing zero network requests. -/
theorem claim_C10_empty_config_is_benign
    (env : SyncEnv) (oracle : Oracle) (sealFn : Seal) (geminiApiKey : String) :
    mainSync ⟨none⟩ env = ([.noRepositories], []) ∧
    mainSync ⟨some []⟩ env = ([.noRepositories], []) ∧
    mainSetSecrets ⟨none⟩ oracle sealFn geminiApiKey = ([.noRepositories], []) ∧
    mainSetSecrets ⟨some []⟩ oracle sealFn geminiApiKey = ([.noRepositories], []) :=
  ⟨rfl, rfl, rfl, rfl⟩

/-! ## Claim C8 -/

/-- C8: for a repository declaring a runtime target and workflows, the
batch driver runs the RUNS_ON variable step first: every request of the
variable step precedes every file-sync request in the trace, and the
file-sync part of the run is the same expression whatever the variable
step produced.  In particular, when setVariable throws, the error is
caught as a variable error event and the file-sync steps still run. -/
theorem claim_C8_variable_first_independent
    (env : SyncEnv) (rc : RepositoryConfig) (v : String) (ws : List String)
    (hrun : rc.runsOn = some v) (hv : v ≠ "")
    (hws : rc.workflows = some ws) (hne : ws ≠ []) :
    processRepo env rc
      = ((varStep env rc.name (parseOwner rc.name) (parseRepo rc.name) (some v)).1
          ++ (joinResults (ws.map (processWorkflow env (parseOwner rc.name)
              (parseRepo rc.name) (parseBranch rc.branch)))).1,
         (varStep env rc.name (parseOwner rc.name) (parseRepo rc.name) (some v)).2
          ++ (joinResults (ws.map (processWorkflow env (parseOwner rc.name)
              (parseRepo rc.name) (parseBranch rc.branch)))).2) ∧
    (∀ msg vtr,
      setVariable env.oracle (parseOwner rc.name) (parseRepo rc.name) "RUNS_ON" v
        = (.error msg, vtr) →
      processRepo env rc
        = (.varError msg :: (joinResults (ws.map (processWorkflow env (parseOwner rc.name)
              (parseRepo rc.name) (parseBranch rc.branch)))).1,
           vtr ++ (joinResults (ws.map (processWorkflow env (parseOwner rc.name)
              (parseRepo rc.name) (parseBranch rc.branch)))).2)) := by
  obtain ⟨name, workflows, branch, runsOn⟩ := rc
  simp only at hrun hws
  subst hrun
  subst hws
  constructor
  · simp only [processRepo, if_neg hne]
  · intro msg vtr hsv
    simp only [processRepo, if_neg hne, varStep, if_neg hv, hsv]
    rfl

/-- Witness for C8: the RUNS_ON endpoints answer 500, the variable step
fails, and the file of the single workflow is still reconciled (created)
afterwards. -/
theorem claim_C8_witness :
    processRepo envC8 rcC8
      = ([.varError "GitHub API error: 500 boom",
          .fileSynced ".github/workflows/ci.yml" .created],
         [varGetReq "acme" "widgets" "RUNS_ON",
          fileGetReq "acme" "widgets" ".github/workflows/ci.yml" "main",
          createPutReq "acme" "widgets" ".github/workflows/ci.yml" "T" "main"]) :=
  (claim_C8_variable_first_independent envC8 rcC8 "ubuntu" ["ci"] rfl (by decide) rfl
      (by decide)).2
    "GitHub API error: 500 boom" [varGetReq "acme" "widgets" "RUNS_ON"] (by decide)

/-! ## Claim C4 -/

/-- Counterexample to C4 as stated: with one workflow whose artifact
sequence is the template file followed by two auxiliary command files,
the read of the second artifact (the first command file) fails with a
plain 500.  The run reports the whole workflow failed and it never
touches the third artifact: no request against the b.md paths appears in
the trace, although the claim requires that artifact to still be
reconciled. -/
theorem claim_C4_counterexample :
    mainSync cfgC4 envC4
      = ([.fileSynced ".github/workflows/ci.yml" .created,
          .workflowError "ci" "GitHub API error: 500 Internal Server Error"],
         [fileGetReq "acme" "widgets" ".github/workflows/ci.yml" "main",
          createPutReq "acme" "widgets" ".github/workflows/ci.yml" "T" "main",
          fileGetReq "acme" "widgets" ".github/commands/a.md" "main"]) ∧
    (∀ req ∈ (mainSync cfgC4 envC4).2,
      req.endpoint ≠ fileEndpoint "acme" "widgets" ".github/commands/b.md" ∧
      req.endpoint
        ≠ fileEndpoint "acme" "widgets" ".github/commands/b.md" ++ "?ref=main") := by
  decide

/-- C4 amended: a non-not-found failure of one artifact aborts only the
remaining artifacts of the same workflow group (the template file and its
auxiliary files), which is reported as one workflow failure; every other
workflow group of the repository and every other repository is still
processed exactly as it would be alone, with the events and requests of
the groups concatenated in order. -/
theorem claim_C4_amended_failure_scope
    (env : SyncEnv) (owner repo branch w : String) (ws1 ws2 : List String) :
    joinResults ((ws1 ++ w :: ws2).map (processWorkflow env owner repo branch))
      = ((joinResults (ws1.map (processWorkflow env owner repo branch))).1
           ++ (processWorkflow env owner repo branch w).1
           ++ (joinResults (ws2.map (processWorkflow env owner repo branch))).1,
         (joinResults (ws1.map (processWorkflow env owner repo branch))).2
           ++ (processWorkflow env owner repo branch w).2
           ++ (joinResults (ws2.map (processWorkflow env owner repo branch))).2) ∧
    (∀ (rs1 rs2 : List RepositoryConfig) (r : RepositoryConfig),
      mainSync ⟨some (rs1 ++ r :: rs2)⟩ env
        = ((joinResults (rs1.map (processRepo env))).1 ++ (processRepo env r).1
             ++ (joinResults (rs2.map (processRepo env))).1,
           (joinResults (rs1.map (processRepo env))).2 ++ (processRepo env r).2
             ++ (joinResults (rs2.map (processRepo env))).2)) := by
  constructor
  · simp [joinResults, List.map_append, List.flatten_append]
  · intro rs1 rs2 r
    have hne : rs1 ++ r :: rs2 ≠ [] := by simp
    simp [mainSync, if_neg hne, joinResults, List.map_append, List.flatten_append]
